import Mathlib

/-!
Verification development for the Cheesse engine adapter
(`Backend/stockfish-engine.js` and the Express routes of `Backend/server.js`).

The adapter spawns a UCI chess-engine subprocess per analysis request, feeds
it `uci` / `isready` / `position` / `go` commands, accumulates the fields of
streamed `info` lines, and settles exactly once on the first of: a `bestmove`
line, a timeout, data on the error stream, or a process error.

The embedding below models:
  * the line matchers (`parseScore` and the depth / nodes / pv / bestmove
    regexes) as scanners over `List Char`, mirroring JavaScript regex
    semantics (leftmost match, `\b` word boundaries, greedy quantifiers);
  * the per-session state machine as a fold of a `step` function over a list
    of session events (framed stdout lines, stderr chunks, the timer firing,
    a process error);
  * the engine locator, the analyze entry point and the two HTTP routes as
    pure functions over an explicit filesystem predicate and a `World`
    recording process-spawn side effects.
-/

/-- JavaScript `\w` character class: ASCII letters, digits and underscore. -/
def isWordChar (c : Char) : Bool := c.isAlphanum || c == '_'

/-- JavaScript `\s` character class restricted to the ASCII whitespace that can
occur on engine output lines (space, tab, newline, carriage return, vertical
tab, form feed). -/
def isJsSpace (c : Char) : Bool :=
  c == ' ' || c == '\t' || c == '\n' || c == '\r' || c == '\x0b' || c == '\x0c'

/-- JavaScript line terminators that the regex `.` metacharacter refuses to
match (the Unicode separators cannot occur in the byte streams modeled here). -/
def isLineTerm (c : Char) : Bool := c == '\n' || c == '\r'

/-- Match a literal character sequence at the head of the input, returning the
remainder on success. Used for the fixed words of the source regexes. -/
def dropLit : List Char → List Char → Option (List Char)
  | [], s => some s
  | _ :: _, [] => none
  | p :: ps, c :: cs => if p = c then dropLit ps cs else none

/-- JavaScript `line.startsWith(prefixWord)`: literal prefix test. -/
def jsStartsWith (s pat : String) : Bool := (dropLit pat.data s.data).isSome

/-- JavaScript `String.prototype.trim()`: strip leading and trailing whitespace. -/
def jsTrim (s : String) : String :=
  String.mk (((s.data.dropWhile isJsSpace).reverse.dropWhile isJsSpace).reverse)

/-- Regex `\s+`: require at least one whitespace character, consume the maximal
run (the tokens that follow it in every use are non-whitespace, so the greedy
munch is exact). -/
def spaces1 : List Char → Option (List Char)
  | [] => none
  | c :: cs => if isJsSpace c then some (cs.dropWhile isJsSpace) else none

/-- Digit run value: the number denoted by a nonempty list of decimal digits. -/
def digitsVal (ds : List Char) : Nat :=
  ds.foldl (fun n c => 10 * n + (c.toNat - '0'.toNat)) 0

/-- Regex `(\d+)`: require at least one decimal digit, capture the maximal run
(exact integer value; the source applies `Number.parseInt(_, 10)`, which agrees
with the exact value for all magnitudes an engine emits). -/
def digits1 (s : List Char) : Option (Nat × List Char) :=
  let ds := s.takeWhile Char.isDigit
  if ds.isEmpty then none else some (digitsVal ds, s.dropWhile Char.isDigit)

/-- Regex `(-?\d+)`: an optional minus sign followed by digits. -/
def intToken (s : List Char) : Option (Int × List Char) :=
  match s with
  | '-' :: rest =>
    match digits1 rest with
    | some (n, r) => some (-(n : Int), r)
    | none => none
  | _ =>
    match digits1 s with
    | some (n, r) => some ((n : Int), r)
    | none => none

/-- Attempt of regex `score\s+(cp|mate)\s+(-?\d+)` at the current position.
The alternatives `cp` and `mate` differ in their first character, so no
backtracking between them can succeed; trying `cp` first and falling back to
`mate` only when its literal fails is exact. -/
def scoreAt (s : List Char) : Option (String × Int) :=
  match dropLit "score".data s with
  | none => none
  | some r =>
    match spaces1 r with
    | none => none
    | some r2 =>
      match dropLit "cp".data r2 with
      | some r3 =>
        match spaces1 r3 with
        | none => none
        | some r4 => (intToken r4).map (fun x => ("cp", x.1))
      | none =>
        match dropLit "mate".data r2 with
        | none => none
        | some r3 =>
          match spaces1 r3 with
          | none => none
          | some r4 => (intToken r4).map (fun x => ("mate", x.1))

/-- Leftmost-match scan with a `\b` word boundary before the pattern: the
attempt `p` is tried at each position whose preceding character is not a word
character (all patterns scanned for here begin with a word character, so the
boundary condition is exactly that). The Boolean argument records whether the
current position is at such a boundary; the initial call passes `true`. -/
def scanB {α : Type} (p : List Char → Option α) : List Char → Bool → Option α
  | [], atB => if atB then p [] else none
  | c :: cs, atB =>
    match (if atB then p (c :: cs) else none) with
    | some a => some a
    | none => scanB p cs (!(isWordChar c))

/-- Two-digit zero-padded rendering of a value below 100. -/
def pad2 (n : Nat) : String := if n < 10 then "0" ++ toString n else toString n

/-- Model of `(value / 100).toFixed(2)` from `parseScore`: the pawn value with
exactly two decimals, a leading minus sign for negative input. The
double-precision division and `toFixed` agree with this exact decimal
rendering for every magnitude within the engine's score range. -/
def toFixed2 (v : Int) : String :=
  (if v < 0 then "-" else "") ++ toString (v.natAbs / 100) ++ "." ++ pad2 (v.natAbs % 100)

/-- The evaluation object built by `parseScore`: `{ type, value, display }`. -/
structure Score where
  type : String
  value : Int
  display : String
  deriving DecidableEq

/-- The `parseScore(line)` function of `stockfish-engine.js`: find the first
`\bscore\s+(cp|mate)\s+(-?\d+)` match and build the evaluation object, with
`display` the signed two-decimal pawn value for `cp` and `M` plus the raw
integer for `mate`. -/
def parseScore (line : String) : Option Score :=
  match scanB scoreAt line.data true with
  | none => none
  | some (t, v) =>
    some { type := t, value := v,
           display := if t = "cp" then (if 0 ≤ v then "+" else "") ++ toFixed2 v
                      else "M" ++ toString v }

/-- Attempt of regex `depth\s+(\d+)` at the current position. -/
def depthAt (s : List Char) : Option Int :=
  match dropLit "depth".data s with
  | none => none
  | some r =>
    match spaces1 r with
    | none => none
    | some r2 => (digits1 r2).map (fun x => (x.1 : Int))

/-- The `line.match(/\bdepth\s+(\d+)/)` capture of the info handler. -/
def matchDepth (line : String) : Option Int := scanB depthAt line.data true

/-- Attempt of regex `nodes\s+(\d+)` at the current position. -/
def nodesAt (s : List Char) : Option Int :=
  match dropLit "nodes".data s with
  | none => none
  | some r =>
    match spaces1 r with
    | none => none
    | some r2 => (digits1 r2).map (fun x => (x.1 : Int))

/-- The `line.match(/\bnodes\s+(\d+)/)` capture of the info handler. -/
def matchNodes (line : String) : Option Int := scanB nodesAt line.data true

/-- The `\s+(.+)$` tail of the pv regex, applied to the characters after the
literal `pv`: at least one whitespace character, then a nonempty capture that
the dot metacharacter forbids to contain a line terminator, reaching the end
of the line. Greedy `\s+` takes the maximal whitespace run; when nothing
follows that run the engine backtracks one character, so the capture becomes
the final whitespace character provided it is not itself a line terminator. -/
def pvCapture (r : List Char) : Option (List Char) :=
  match r with
  | [] => none
  | c :: _ =>
    if isJsSpace c then
      let tail := r.dropWhile isJsSpace
      if tail.isEmpty then
        if 2 ≤ r.length ∧ ¬ isLineTerm (r.getLastD ' ') then some [r.getLastD ' ']
        else none
      else if tail.all (fun ch => !(isLineTerm ch)) then some tail
      else none
    else none

/-- Attempt of regex `pv\s+(.+)$` at the current position. -/
def pvAt (s : List Char) : Option String :=
  match dropLit "pv".data s with
  | none => none
  | some r => (pvCapture r).map String.mk

/-- The `line.match(/\bpv\s+(.+)$/)` capture of the info handler. -/
def matchPv (line : String) : Option String := scanB pvAt line.data true

/-- Regex `(\S+)`: a nonempty maximal run of non-whitespace characters. -/
def tokenOf (s : List Char) : Option (List Char × List Char) :=
  let t := s.takeWhile (fun c => !(isJsSpace c))
  if t.isEmpty then none else some (t, s.dropWhile (fun c => !(isJsSpace c)))

/-- The anchored `^bestmove\s+(\S+)(?:\s+ponder\s+(\S+))?` match of the
bestmove handler: the first capture and the optional ponder capture. The
optional group can simply be skipped when it fails, because shrinking the
greedy `\S+` can never make the group's leading `\s+` match. -/
def bestmoveMatch (line : String) : Option (String × Option String) :=
  match dropLit "bestmove".data line.data with
  | none => none
  | some r =>
    match spaces1 r with
    | none => none
    | some r1 =>
      match tokenOf r1 with
      | none => none
      | some (tok, r2) =>
        let ponder :=
          match spaces1 r2 with
          | none => none
          | some r3 =>
            match dropLit "ponder".data r3 with
            | none => none
            | some r4 =>
              match spaces1 r4 with
              | none => none
              | some r5 =>
                match tokenOf r5 with
                | none => none
                | some (p, _) => some (String.mk p)
        some (String.mk tok, ponder)

/-- The normalized arguments of `analyzePosition({ fen = 'startpos', moves = [],
depth, movetime = 600 })`. The field defaults mirror the destructuring
defaults; `depth` stays optional because the source leaves it `undefined` when
absent. -/
structure Cfg where
  fen : String := "startpos"
  moves : List String := []
  depth : Option Int := none
  movetime : Int := 600
  deriving DecidableEq

/-- The object passed to `resolve` on a `bestmove` line. -/
structure Payload where
  bestmove : Option String
  ponder : Option String
  evaluation : Option Score
  depth : Option Int
  nodes : Option Int
  pv : Option String
  deriving DecidableEq

/-- How the per-session promise settles: `resolve(payload)` or
`reject(new Error(msg))`. -/
inductive Outcome where
  | resolvedWith (p : Payload)
  | rejected (msg : String)
  deriving DecidableEq

/-- The mutable state of one `analyzePosition` session: the `resolved` guard
flag, whether `cleanup()` has detached the stdout/stderr listeners, whether
the timeout timer is still pending, how many times `engine.kill()` ran, the
four `latest*` accumulators, the commands written to the engine's stdin, and
the settled outcome (if any). -/
structure SessionState where
  resolved : Bool
  listenersAttached : Bool
  timerActive : Bool
  killCount : Nat
  latestScore : Option Score
  latestDepth : Option Int
  latestNodes : Option Int
  latestPv : Option String
  stdinWrites : List String
  outcome : Option Outcome
  deriving DecidableEq

/-- Overwrite semantics of `if (x) \x7b field = x \x7d` on a nullable accumulator: overwrite when the new
value is present, keep the old one otherwise. -/
def ovw {α : Type} (new old : Option α) : Option α :=
  match new with
  | some v => some v
  | none => old

/-- The `position ...` command composed in the `readyok` branch, including the
trailing newline written to stdin. -/
def positionCommand (cfg : Cfg) : String :=
  let moveList := if cfg.moves.length > 0 then " moves " ++ String.intercalate " " cfg.moves else ""
  if cfg.fen = "startpos" then "position startpos" ++ moveList ++ "\n"
  else "position fen " ++ cfg.fen ++ moveList ++ "\n"

/-- The `go ...` command composed in the `readyok` branch. `if (depth)` is a
JavaScript truthiness test, so a supplied depth of `0` falls through to the
movetime branch exactly like an absent depth. -/
def goCommand (cfg : Cfg) : String :=
  match cfg.depth with
  | some d => if d ≠ 0 then "go depth " ++ toString d ++ "\n"
              else "go movetime " ++ toString cfg.movetime ++ "\n"
  | none => "go movetime " ++ toString cfg.movetime ++ "\n"

/-- The `Math.max(250, Number(movetime) + 1500)` computation: the timer budget, computed from
the movetime alone. -/
def timeoutMs (cfg : Cfg) : Int := max 250 (cfg.movetime + 1500)

/-- The `finish(payload)` helper: a no-op once `resolved` is set; otherwise it
sets the flag, runs `cleanup()` (detach listeners, clear the timer), kills the
engine and resolves the promise. -/
def finish (s : SessionState) (p : Payload) : SessionState :=
  if s.resolved then s
  else { s with resolved := true, listenersAttached := false, timerActive := false,
                killCount := s.killCount + 1, outcome := some (.resolvedWith p) }

/-- The `handleLine(line)` dispatcher: dispatch one framed, trimmed stdout line. Empty lines
are dropped; `uciok` answers `isready`; `readyok` writes the position and go
commands; `info` lines overwrite whichever of the four accumulators they
carry; `bestmove` lines build the payload from the accumulators and finish. -/
def handleLine (cfg : Cfg) (s : SessionState) (line : String) : SessionState :=
  if line = "" then s
  else if line = "uciok" then { s with stdinWrites := s.stdinWrites ++ ["isready\n"] }
  else if line = "readyok" then
    { s with stdinWrites := s.stdinWrites ++ [positionCommand cfg, goCommand cfg] }
  else if jsStartsWith line "info" then
    { s with latestScore := ovw (parseScore line) s.latestScore,
             latestDepth := ovw (matchDepth line) s.latestDepth,
             latestNodes := ovw (matchNodes line) s.latestNodes,
             latestPv := ovw (matchPv line) s.latestPv }
  else if jsStartsWith line "bestmove" then
    finish s { bestmove := (bestmoveMatch line).map Prod.fst,
               ponder := match bestmoveMatch line with
                         | some (_, p) => p
                         | none => none,
               evaluation := s.latestScore, depth := s.latestDepth,
               nodes := s.latestNodes, pv := s.latestPv }
  else s

/-- The asynchronous events a session can observe. `stdoutLine` is one line as
framed by the stdout data handler, which buffers chunks, splits on `\r?\n`,
holds back the trailing partial line and trims each dispatched line;
`stderrData` is one chunk on the error stream; `timeout` is the timer firing;
`procError` is the `error` event of the child process. -/
inductive SEvent where
  | stdoutLine (raw : String)
  | stderrData (chunk : String)
  | timeout
  | procError (msg : String)
  deriving DecidableEq

/-- One session event. Stdout and stderr handlers only run while attached
(`cleanup()` removes them); the timer fires at most once and is cancelled by
`cleanup()`; the stderr handler requires a nonempty trimmed message and the
unresolved flag, then rejects with the trimmed message and kills the engine;
the timer handler rejects with the timeout error and kills the engine but
runs no `cleanup()`; the process-error handler rejects without killing. -/
def step (cfg : Cfg) (s : SessionState) : SEvent → SessionState
  | .stdoutLine raw => if s.listenersAttached then handleLine cfg s (jsTrim raw) else s
  | .stderrData chunk =>
    if s.listenersAttached then
      if s.resolved = false ∧ jsTrim chunk ≠ "" then
        { s with resolved := true, listenersAttached := false, timerActive := false,
                 killCount := s.killCount + 1,
                 outcome := some (.rejected (jsTrim chunk)) }
      else s
    else s
  | .timeout =>
    if s.timerActive then
      if s.resolved then { s with timerActive := false }
      else { s with timerActive := false, resolved := true, killCount := s.killCount + 1,
                    outcome := some (.rejected "Stockfish timed out.") }
    else s
  | .procError msg =>
    if s.resolved then s
    else { s with resolved := true, listenersAttached := false, timerActive := false,
                  outcome := some (.rejected msg) }

/-- The session state right after the spawn: listeners attached, timer armed,
`uci` already written to stdin. -/
def initState : SessionState :=
  { resolved := false, listenersAttached := true, timerActive := true, killCount := 0,
    latestScore := none, latestDepth := none, latestNodes := none, latestPv := none,
    stdinWrites := ["uci\n"], outcome := none }

/-- Run one session over a list of events. -/
def runSession (cfg : Cfg) (evs : List SEvent) : SessionState :=
  evs.foldl (step cfg) initState

/-- Modelled from the spec: the field value carried by the most recent line
for which the matcher fires, starting from a previous value — the "latest"
semantics the specification ascribes to the info accumulators. -/
def specLatest {α : Type} (f : String → Option α) (a : Option α) (ls : List String) : Option α :=
  ls.foldl (fun acc l => ovw (f l) acc) a

/-- The default `path.join(__dirname, 'bin', 'stockfish.exe')` location, with the script directory
abstracted as a parameter. -/
def defaultEnginePath (dirname : String) : String := dirname ++ "/bin/stockfish.exe"

/-- The `process.env.STOCKFISH_PATH || DEFAULT_ENGINE_PATH` resolution: the override wins
unless it is absent or the empty string (falsy). -/
def resolveEnginePath (dirname : String) (envOverride : Option String) : String :=
  match envOverride with
  | some p => if p = "" then defaultEnginePath dirname else p
  | none => defaultEnginePath dirname

/-- The Stockfish release archive URL advertised by the status route. -/
def stockfishWindowsUrl : String :=
  "https://github.com/official-stockfish/Stockfish/releases/download/sf_17.1/stockfish-windows-x86-64.zip"

/-- The object returned by `getEngineStatus()`. -/
structure EngineStatus where
  available : Bool
  enginePath : String
  downloadUrl : String
  deriving DecidableEq

/-- The `getEngineStatus()` function: resolve the path, test existence on disk, attach the
download hint. `fsExists` abstracts `fs.existsSync`. -/
def getEngineStatus (dirname : String) (envOverride : Option String)
    (fsExists : String → Bool) : EngineStatus :=
  let p := resolveEnginePath dirname envOverride
  { available := fsExists p, enginePath := p, downloadUrl := stockfishWindowsUrl }

/-- Observable process side effects: how many subprocesses have been spawned. -/
structure World where
  spawnCount : Nat
  deriving DecidableEq

/-- The message rejected when the engine binary is missing. -/
def engineNotFoundMsg : String :=
  "Stockfish engine not found. Download it or set STOCKFISH_PATH."

/-- The `analyzePosition` entry point: reject before spawning when the engine is unavailable;
otherwise spawn (recorded in the `World`) and run the session over the given
events, the promise settling on the session's outcome (`none` while pending). -/
def analyzePosition (dirname : String) (envOverride : Option String)
    (fsExists : String → Bool) (cfg : Cfg) (evs : List SEvent) (w : World) :
    World × Option Outcome :=
  let st := getEngineStatus dirname envOverride fsExists
  if st.available = false then (w, some (.rejected engineNotFoundMsg))
  else ({ w with spawnCount := w.spawnCount + 1 }, (runSession cfg evs).outcome)

/-- The JSON body of `POST /api/engine/analyze`; `none` stands for an absent
field, a field of the wrong type, or a non-finite number — every case the
route's normalization sends to the default. -/
structure AnalyzeBody where
  fen : Option String := none
  moves : Option (List String) := none
  depth : Option Int := none
  movetime : Option Int := none
  deriving DecidableEq

/-- The route's argument normalization: a nonempty trimmed string for `fen`
(else `startpos`), an array for `moves` (else `[]`), a finite number for
`depth` (else undefined) and for `movetime` (else 600). -/
def normalizeBody (b : AnalyzeBody) : Cfg :=
  { fen := match b.fen with
           | some f => if jsTrim f = "" then "startpos" else jsTrim f
           | none => "startpos",
    moves := b.moves.getD [],
    depth := b.depth,
    movetime := b.movetime.getD 600 }

/-- An HTTP response of the analyze route: the status code, the `error` field
of a failure body, or the result payload of a success body. -/
structure HttpResponse where
  status : Nat
  errorMsg : Option String
  payload : Option Payload
  deriving DecidableEq

/-- The `POST /api/engine/analyze` route: normalize the body, await `analyzePosition`,
serialize the payload on success and map any rejection to a 503 with the
error message; `none` models a request still awaiting its session. -/
def postEngineAnalyze (dirname : String) (envOverride : Option String)
    (fsExists : String → Bool) (b : AnalyzeBody) (evs : List SEvent) (w : World) :
    World × Option HttpResponse :=
  match analyzePosition dirname envOverride fsExists (normalizeBody b) evs w with
  | (w2, some (.resolvedWith p)) =>
    (w2, some { status := 200, errorMsg := none, payload := some p })
  | (w2, some (.rejected e)) =>
    (w2, some { status := 503, errorMsg := some e, payload := none })
  | (w2, none) => (w2, none)

/-- A path separator accepted by `path.basename` on win32. -/
def isSep (c : Char) : Bool := c == '/' || c == '\\'

/-- The `path.basename(p)` function: the last path component, ignoring trailing
separators. -/
def basename (p : String) : String :=
  let cs := p.data.reverse.dropWhile isSep
  String.mk (cs.takeWhile (fun c => !(isSep c))).reverse

/-- The JSON body of `GET /api/engine/status`. -/
structure StatusResponse where
  available : Bool
  enginePath : Option String
  downloadUrl : String
  deriving DecidableEq

/-- The `GET /api/engine/status` route: report availability, the basename of the path
when available and `null` otherwise, and the download URL; the `World` passes
through untouched because the route only checks the filesystem. -/
def getEngineStatusRoute (dirname : String) (envOverride : Option String)
    (fsExists : String → Bool) (w : World) : World × StatusResponse :=
  let st := getEngineStatus dirname envOverride fsExists
  (w, { available := st.available,
        enginePath := if st.available then some (basename st.enginePath) else none,
        downloadUrl := st.downloadUrl })

/-- The one-shot settlement invariant of a session: the `resolved` flag holds
exactly when the promise has settled, and an unresolved session still has its
listeners attached and its timer armed. -/
def SessionInv (s : SessionState) : Prop :=
  s.resolved = s.outcome.isSome ∧
    (s.resolved = false → s.listenersAttached = true ∧ s.timerActive = true)

/-- A nonempty literal prefix rules out any literal prefix with a different
first character. -/
theorem dropLit_head_ne {p q : Char} {ps qs : List Char} (hpq : q ≠ p) (cs : List Char)
    (h : (dropLit (p :: ps) cs).isSome = true) : (dropLit (q :: qs) cs).isSome = false := by
  cases cs with
  | nil => simp [dropLit] at h
  | cons c cs' =>
    simp only [dropLit] at h ⊢
    split at h
    · next hpc => rw [if_neg (hpc ▸ hpq)]; rfl
    · simp at h

/-- A line recognized by the `info` branch is none of the earlier literals. -/
theorem info_line_ne (l : String) (h : jsStartsWith l "info" = true) :
    l ≠ "" ∧ l ≠ "uciok" ∧ l ≠ "readyok" := by
  refine ⟨?_, ?_, ?_⟩ <;> rintro rfl <;> revert h <;> decide

/-- A line recognized by the `bestmove` branch is none of the earlier literals
and is not an `info` line. -/
theorem bestmove_line_ne (l : String) (h : jsStartsWith l "bestmove" = true) :
    l ≠ "" ∧ l ≠ "uciok" ∧ l ≠ "readyok" ∧ jsStartsWith l "info" = false := by
  refine ⟨?_, ?_, ?_, ?_⟩
  · rintro rfl; revert h; decide
  · rintro rfl; revert h; decide
  · rintro rfl; revert h; decide
  · exact dropLit_head_ne (by decide) l.data h

/-- Once the session is resolved, no line changes the outcome or clears the
flag. -/
theorem handleLine_resolved (cfg : Cfg) (s : SessionState) (l : String)
    (h : s.resolved = true) :
    (handleLine cfg s l).outcome = s.outcome ∧ (handleLine cfg s l).resolved = true := by
  unfold handleLine finish
  repeat' split
  all_goals simp_all

/-- Once the session is resolved, no event changes the outcome or clears the
flag. -/
theorem step_resolved (cfg : Cfg) (s : SessionState) (e : SEvent)
    (h : s.resolved = true) :
    (step cfg s e).outcome = s.outcome ∧ (step cfg s e).resolved = true := by
  cases e with
  | stdoutLine raw =>
    by_cases hl : s.listenersAttached = true
    · simpa [step, hl] using handleLine_resolved cfg s (jsTrim raw) h
    · simp [step, hl, h]
  | stderrData chunk => simp [step, h]
  | timeout => by_cases ht : s.timerActive = true <;> simp [step, h, ht]
  | procError msg => simp [step, h]

/-- The dispatcher `handleLine` preserves the one-shot settlement invariant. -/
theorem handleLine_inv (cfg : Cfg) (s : SessionState) (l : String)
    (h : SessionInv s) : SessionInv (handleLine cfg s l) := by
  unfold SessionInv at *
  unfold handleLine finish
  repeat' split
  all_goals simp_all

/-- The transition `step` preserves the one-shot settlement invariant. -/
theorem step_inv (cfg : Cfg) (s : SessionState) (e : SEvent)
    (h : SessionInv s) : SessionInv (step cfg s e) := by
  cases e with
  | stdoutLine raw =>
    by_cases hl : s.listenersAttached = true
    · simpa [step, hl] using handleLine_inv cfg s (jsTrim raw) h
    · simpa [step, hl] using h
  | stderrData chunk =>
    obtain ⟨h1, h2⟩ := h
    unfold SessionInv
    unfold step
    repeat' split
    all_goals simp_all [Option.isSome_iff_ne_none]
  | timeout =>
    obtain ⟨h1, h2⟩ := h
    unfold SessionInv
    unfold step
    repeat' split
    all_goals simp_all [Option.isSome_iff_ne_none]
  | procError msg =>
    obtain ⟨h1, h2⟩ := h
    unfold SessionInv
    unfold step
    repeat' split
    all_goals simp_all [Option.isSome_iff_ne_none]

/-- The settlement invariant holds along any fold of `step`. -/
theorem foldl_step_inv (cfg : Cfg) (evs : List SEvent) :
    ∀ s : SessionState, SessionInv s → SessionInv (evs.foldl (step cfg) s) := by
  induction evs with
  | nil => intro s h; exact h
  | cons e evs ih =>
    intro s h
    rw [List.foldl_cons]
    exact ih _ (step_inv cfg s e h)

/-- Every reachable session state satisfies the settlement invariant. -/
theorem runSession_inv (cfg : Cfg) (evs : List SEvent) :
    SessionInv (runSession cfg evs) :=
  foldl_step_inv cfg evs initState ⟨rfl, fun _ => ⟨rfl, rfl⟩⟩

/-- Folding further events over a resolved state never changes the outcome. -/
theorem foldl_step_resolved (cfg : Cfg) (evs : List SEvent) :
    ∀ s : SessionState, s.resolved = true →
      (evs.foldl (step cfg) s).outcome = s.outcome ∧
        (evs.foldl (step cfg) s).resolved = true := by
  induction evs with
  | nil => intro s h; exact ⟨rfl, h⟩
  | cons e evs ih =>
    intro s h
    rw [List.foldl_cons]
    obtain ⟨h1, h2⟩ := step_resolved cfg s e h
    obtain ⟨h3, h4⟩ := ih _ h2
    exact ⟨h3.trans h1, h4⟩

/-- An unresolved session still has its listeners attached and timer armed. -/
theorem unresolved_live (cfg : Cfg) (evs : List SEvent)
    (h : (runSession cfg evs).resolved = false) :
    (runSession cfg evs).listenersAttached = true ∧
      (runSession cfg evs).timerActive = true :=
  (runSession_inv cfg evs).2 h

/-- An `info` line only overwrites the accumulators it carries. -/
theorem handleLine_infoLine (cfg : Cfg) (s : SessionState) (l : String)
    (h : jsStartsWith l "info" = true) :
    handleLine cfg s l =
      { s with latestScore := ovw (parseScore l) s.latestScore,
               latestDepth := ovw (matchDepth l) s.latestDepth,
               latestNodes := ovw (matchNodes l) s.latestNodes,
               latestPv := ovw (matchPv l) s.latestPv } := by
  obtain ⟨h1, h2, h3⟩ := info_line_ne l h
  simp [handleLine, h1, h2, h3, h]

/-- Folding a list of trimmed `info` lines leaves every accumulator at the
value of the last line that carried the corresponding field. -/
theorem infoFold (cfg : Cfg) (ls : List String) :
    ∀ s : SessionState,
      (∀ l ∈ ls, jsTrim l = l ∧ jsStartsWith l "info" = true) →
      s.listenersAttached = true →
      List.foldl (step cfg) s (ls.map SEvent.stdoutLine) =
        { s with latestScore := specLatest parseScore s.latestScore ls,
                 latestDepth := specLatest matchDepth s.latestDepth ls,
                 latestNodes := specLatest matchNodes s.latestNodes ls,
                 latestPv := specLatest matchPv s.latestPv ls } := by
  induction ls with
  | nil => intro s _ _; rfl
  | cons l ls ih =>
    intro s h hlis
    rw [List.map_cons, List.foldl_cons]
    have hstep : step cfg s (.stdoutLine l) = handleLine cfg s l := by
      simp [step, hlis, (h l (by simp)).1]
    rw [hstep, handleLine_infoLine cfg s l (h l (by simp)).2]
    have hrec := ih { s with latestScore := ovw (parseScore l) s.latestScore, latestDepth := ovw (matchDepth l) s.latestDepth, latestNodes := ovw (matchNodes l) s.latestNodes, latestPv := ovw (matchPv l) s.latestPv } (fun x hx => h x (by simp [hx])) hlis
    rw [hrec]
    rfl

/-- Claim C1: for every analysis session, at most one terminal outcome is ever
produced. Whatever events arrive after the first completion event — further
bestmove lines, the timer, error-stream data, process errors — the settled
outcome never changes: the completion paths are mutually exclusive, guarded by
the single `resolved` flag. -/
theorem session_settles_at_most_once (cfg : Cfg) (evs more : List SEvent) (o : Outcome)
    (h : (runSession cfg evs).outcome = some o) :
    (runSession cfg (evs ++ more)).outcome = some o := by
  have hres : (runSession cfg evs).resolved = true := by
    have hinv := (runSession_inv cfg evs).1
    rw [h] at hinv
    simpa using hinv
  unfold runSession at *
  rw [List.foldl_append]
  obtain ⟨h1, _⟩ := foldl_step_resolved cfg more _ hres
  rw [h1, h]

/-- Witness for C1: a session that resolved on a bestmove line keeps that
outcome through a later timer firing, stderr data and a second bestmove. -/
theorem session_settles_at_most_once_witness :
    (runSession {} [SEvent.stdoutLine "bestmove e2e4"]).outcome =
      some (.resolvedWith { bestmove := some "e2e4", ponder := none, evaluation := none,
                            depth := none, nodes := none, pv := none }) ∧
    (runSession {} ([SEvent.stdoutLine "bestmove e2e4"] ++
        [SEvent.timeout, SEvent.stderrData "boom", SEvent.stdoutLine "bestmove a7a5"])).outcome =
      some (.resolvedWith { bestmove := some "e2e4", ponder := none, evaluation := none,
                            depth := none, nodes := none, pv := none }) :=
  ⟨by decide, session_settles_at_most_once {} _ _ _ (by decide)⟩

/-- Claim C2: a scripted run `uciok` → `readyok` → info lines → `bestmove e2e4
ponder e7e5` resolves with those two move tokens and with each of evaluation,
depth, nodes and pv equal to the value carried by the last info line that
contained that field — later info lines overwrite, earlier values are never
merged. -/
theorem scripted_run_resolves_with_latest (cfg : Cfg) (infos : List String)
    (h : ∀ l ∈ infos, jsTrim l = l ∧ jsStartsWith l "info" = true) :
    (runSession cfg ([SEvent.stdoutLine "uciok", SEvent.stdoutLine "readyok"] ++
        infos.map SEvent.stdoutLine ++
        [SEvent.stdoutLine "bestmove e2e4 ponder e7e5"])).outcome =
      some (.resolvedWith
        { bestmove := some "e2e4", ponder := some "e7e5",
          evaluation := specLatest parseScore none infos,
          depth := specLatest matchDepth none infos,
          nodes := specLatest matchNodes none infos,
          pv := specLatest matchPv none infos }) := by
  unfold runSession
  rw [List.foldl_append, List.foldl_append]
  have h0 : List.foldl (step cfg) initState
      [SEvent.stdoutLine "uciok", SEvent.stdoutLine "readyok"] =
      { initState with stdinWrites := ["uci\n", "isready\n", positionCommand cfg, goCommand cfg] } := rfl
  rw [h0]
  have hmid := infoFold cfg infos { initState with stdinWrites := ["uci\n", "isready\n", positionCommand cfg, goCommand cfg] } h rfl
  rw [hmid]
  rfl

/-- Witness for C2: a concrete three-line info script; the last carriers win
(mate score and pv from the third line, depth and nodes from the second). -/
theorem scripted_run_resolves_with_latest_witness :
    (runSession {} ([SEvent.stdoutLine "uciok", SEvent.stdoutLine "readyok"] ++
        List.map SEvent.stdoutLine
          ["info depth 10 score cp 35 nodes 100 pv e2e4 e7e5",
           "info depth 12 nodes 2000",
           "info score mate -2 pv d2d4"] ++
        [SEvent.stdoutLine "bestmove e2e4 ponder e7e5"])).outcome =
      some (.resolvedWith
        { bestmove := some "e2e4", ponder := some "e7e5",
          evaluation := some { type := "mate", value := -2, display := "M-2" },
          depth := some 12, nodes := some 2000, pv := some "d2d4" }) := by
  have h := scripted_run_resolves_with_latest {}
    ["info depth 10 score cp 35 nodes 100 pv e2e4 e7e5",
     "info depth 12 nodes 2000",
     "info score mate -2 pv d2d4"] (by decide)
  rw [h]
  decide

/-- Appending one event steps the session once. -/
theorem runSession_snoc (cfg : Cfg) (evs : List SEvent) (e : SEvent) :
    runSession cfg (evs ++ [e]) = step cfg (runSession cfg evs) e := by
  unfold runSession
  rw [List.foldl_append]
  rfl

/-- Claim C3: when the timer fires before any terminal line, the session fails
with the timeout error and the subprocess is killed; and the timer budget is
`max(250, movetime + 1500)` computed from the movetime alone, whatever depth
(and hence whichever search mode) the request carries. -/
theorem timeout_rejects_and_kills (cfg : Cfg) (evs : List SEvent)
    (h : (runSession cfg evs).resolved = false) :
    (runSession cfg (evs ++ [SEvent.timeout])).outcome =
      some (.rejected "Stockfish timed out.") ∧
    (runSession cfg (evs ++ [SEvent.timeout])).killCount =
      (runSession cfg evs).killCount + 1 ∧
    (∀ d : Option Int, timeoutMs { cfg with depth := d } = max 250 (cfg.movetime + 1500)) := by
  obtain ⟨hlis, htim⟩ := unresolved_live cfg evs h
  rw [runSession_snoc]
  refine ⟨?_, ?_, fun d => rfl⟩ <;> simp [step, htim, h]

/-- Witness for C3: a fresh session that sees nothing but the timer firing. -/
theorem timeout_rejects_and_kills_witness :
    (runSession {} ([] ++ [SEvent.timeout])).outcome =
      some (.rejected "Stockfish timed out.") ∧
    (runSession {} ([] ++ [SEvent.timeout])).killCount =
      (runSession {} []).killCount + 1 :=
  ⟨(timeout_rejects_and_kills {} [] (by decide)).1,
   (timeout_rejects_and_kills {} [] (by decide)).2.1⟩

/-- Counterexample to C4 as frozen: a request that supplies the depth `0`
still issues a movetime search, because `if (depth)` is a JavaScript
truthiness test and `0` is falsy — the command written is not `go depth 0`. -/
theorem go_depth_zero_counterexample :
    (handleLine { fen := "startpos", moves := [], depth := some 0, movetime := 600 }
        initState "readyok").stdinWrites =
      ["uci\n", "position startpos\n", "go movetime 600\n"] ∧
    ("go movetime 600\n" : String) ≠ "go depth 0\n" := by decide

/-- Claim C4 (amended): after `readyok` the driver writes the position command
and then the go command; the go command is `go depth <depth>` whenever a
nonzero depth was supplied (regardless of any supplied movetime), and
`go movetime <movetime>` whenever depth is absent or zero. -/
theorem go_command_selection (cfg : Cfg) (s : SessionState) :
    (handleLine cfg s "readyok").stdinWrites =
      s.stdinWrites ++ [positionCommand cfg, goCommand cfg] ∧
    (cfg.depth = none ∨ cfg.depth = some 0 →
      goCommand cfg = "go movetime " ++ toString cfg.movetime ++ "\n") ∧
    (∀ d : Int, cfg.depth = some d → d ≠ 0 →
      goCommand cfg = "go depth " ++ toString d ++ "\n") := by
  refine ⟨rfl, ?_, ?_⟩
  · rintro (h | h) <;> simp [goCommand, h]
  · intro d hd hne
    simp [goCommand, hd, hne]

/-- Witness for C4 (amended): depth 3 beats a movetime of 900; an absent depth
falls back to the movetime search. -/
theorem go_command_selection_witness :
    goCommand { fen := "startpos", moves := [], depth := some 3, movetime := 900 } =
      "go depth 3\n" ∧
    goCommand { fen := "startpos", moves := [], depth := none, movetime := 900 } =
      "go movetime 900\n" := by
  have h1 := (go_command_selection ⟨"startpos", [], some 3, 900⟩ initState).2.2 3 rfl (by decide)
  have h2 := (go_command_selection ⟨"startpos", [], none, 900⟩ initState).2.1 (Or.inl rfl)
  exact ⟨by rw [h1]; decide, by rw [h2]; decide⟩

/-- The attempt `scoreAt` only ever produces the tags `cp` and `mate`. -/
theorem scoreAt_tag (s : List Char) (a : String × Int)
    (h : scoreAt s = some a) : a.1 = "cp" ∨ a.1 = "mate" := by
  unfold scoreAt at h
  repeat' split at h
  all_goals simp_all [Option.map_eq_some']
  all_goals obtain ⟨x, -, hx⟩ := h
  all_goals subst hx
  · exact Or.inl rfl
  · exact Or.inr rfl

/-- The scan preserves any property of the attempted match's result. -/
theorem scanB_of_attempt {α : Type} (p : List Char → Option α) (q : α → Prop)
    (hp : ∀ s a, p s = some a → q a) :
    ∀ (s : List Char) (b : Bool) (a : α), scanB p s b = some a → q a := by
  intro s
  induction s with
  | nil =>
    intro b a h
    unfold scanB at h
    split at h
    · exact hp _ _ h
    · simp at h
  | cons c cs ih =>
    intro b a h
    unfold scanB at h
    split at h
    · next a2 heq =>
      injection h with h'
      subst h'
      split at heq
      · exact hp _ _ heq
      · simp at heq
    · exact ih _ _ h

/-- Claim C5: every parsed score is tagged `cp` or `mate`; a `cp` value
displays as the signed pawn value with two decimals and a `+` prefix for
non-negative values, a `mate` value displays as `M` followed by the signed
integer — as on the concrete lines `score cp 35` (`+0.35`), `score cp -120`
(`-1.20`) and `score mate 3` (`M3`). -/
theorem score_display_format :
    (∀ (line : String) (r : Score), parseScore line = some r →
      (r.type = "cp" ∧
        r.display = (if 0 ≤ r.value then "+" else "") ++ toFixed2 r.value) ∨
      (r.type = "mate" ∧ r.display = "M" ++ toString r.value)) ∧
    parseScore "info score cp 35" = some { type := "cp", value := 35, display := "+0.35" } ∧
    parseScore "info score cp -120" = some { type := "cp", value := -120, display := "-1.20" } ∧
    parseScore "info score mate 3" = some { type := "mate", value := 3, display := "M3" } := by
  refine ⟨?_, by decide, by decide, by decide⟩
  intro line r h
  unfold parseScore at h
  split at h
  · simp at h
  · next t v heq =>
    have ht : t = "cp" ∨ t = "mate" :=
      scanB_of_attempt scoreAt (fun x => x.1 = "cp" ∨ x.1 = "mate")
        (fun s a ha => scoreAt_tag s a ha) line.data true (t, v) heq
    injection h with h'
    subst h'
    rcases ht with ht | ht
    · subst ht
      refine Or.inl ⟨rfl, ?_⟩
      show (if ("cp" : String) = "cp" then (if 0 ≤ v then "+" else "") ++ toFixed2 v
            else "M" ++ toString v) = (if 0 ≤ v then "+" else "") ++ toFixed2 v
      rw [if_pos rfl]
    · subst ht
      refine Or.inr ⟨rfl, ?_⟩
      show (if ("mate" : String) = "cp" then (if 0 ≤ v then "+" else "") ++ toFixed2 v
            else "M" ++ toString v) = "M" ++ toString v
      rw [if_neg (by decide)]

/-- Witness for C5: the general display law applied to the parsed line
`info score cp 35`. -/
theorem score_display_format_witness :
    (("cp" : String) = "cp" ∧
      ("+0.35" : String) = (if (0 : Int) ≤ 35 then "+" else "") ++ toFixed2 35) ∨
    (("cp" : String) = "mate" ∧ ("+0.35" : String) = "M" ++ toString (35 : Int)) :=
  score_display_format.1 "info score cp 35"
    { type := "cp", value := 35, display := "+0.35" } (by decide)

/-- Claim C6: after `readyok` the position command is written first; it has no
`moves` clause for an empty move list and otherwise ends with ` moves `
followed by the space-joined tokens in order; the command starts
`position startpos` for the initial layout and `position fen <fen>` for an
explicit board-state string. -/
theorem position_command_shape (cfg : Cfg) (s : SessionState) :
    (handleLine cfg s "readyok").stdinWrites =
      s.stdinWrites ++ [positionCommand cfg, goCommand cfg] ∧
    (cfg.moves = [] → positionCommand cfg =
      (if cfg.fen = "startpos" then "position startpos"
       else "position fen " ++ cfg.fen) ++ "\n") ∧
    (cfg.moves ≠ [] → positionCommand cfg =
      (if cfg.fen = "startpos" then "position startpos"
       else "position fen " ++ cfg.fen) ++
        " moves " ++ String.intercalate " " cfg.moves ++ "\n") := by
  refine ⟨rfl, ?_, ?_⟩
  · intro h
    simp only [positionCommand, h]
    split <;> simp
  · intro h
    simp only [positionCommand, if_pos (List.length_pos.mpr h)]
    split <;> rw [← String.append_assoc]

/-- Witness for C6: a two-move startpos request and a moveless fen request. -/
theorem position_command_shape_witness :
    positionCommand { fen := "startpos", moves := ["e2e4", "e7e5"], depth := none, movetime := 600 } =
      "position startpos moves e2e4 e7e5\n" ∧
    positionCommand { fen := "4k3/8/8/8/8/8/8/4K3 w - - 0 1", moves := [], depth := none, movetime := 600 } =
      "position fen 4k3/8/8/8/8/8/8/4K3 w - - 0 1\n" := by
  have h1 := (position_command_shape ⟨"startpos", ["e2e4", "e7e5"], none, 600⟩ initState).2.2 (by decide)
  have h2 := (position_command_shape ⟨"4k3/8/8/8/8/8/8/4K3 w - - 0 1", [], none, 600⟩ initState).2.1 rfl
  exact ⟨by rw [h1]; decide, by rw [h2]; decide⟩

/-- Claim C7: when the engine binary does not exist at the resolved path, the
driver rejects with the engine-not-found error before any subprocess is
spawned — the `World` is returned untouched — and the analyze route answers
503 with that error message. -/
theorem engine_missing_rejects_before_spawn (dirname : String) (envOverride : Option String)
    (fsExists : String → Bool) (b : AnalyzeBody) (evs : List SEvent) (w : World)
    (h : fsExists (resolveEnginePath dirname envOverride) = false) :
    analyzePosition dirname envOverride fsExists (normalizeBody b) evs w =
      (w, some (.rejected engineNotFoundMsg)) ∧
    postEngineAnalyze dirname envOverride fsExists b evs w =
      (w, some { status := 503, errorMsg := some engineNotFoundMsg, payload := none }) ∧
    (postEngineAnalyze dirname envOverride fsExists b evs w).1.spawnCount = w.spawnCount := by
  have h1 : analyzePosition dirname envOverride fsExists (normalizeBody b) evs w =
      (w, some (.rejected engineNotFoundMsg)) := by
    simp [analyzePosition, getEngineStatus, h]
  refine ⟨h1, ?_, ?_⟩ <;> simp [postEngineAnalyze, h1]

/-- Witness for C7: a filesystem on which nothing exists. -/
theorem engine_missing_rejects_before_spawn_witness :
    analyzePosition "backend" none (fun _ => false) (normalizeBody {}) [] ⟨0⟩ =
      (⟨0⟩, some (.rejected engineNotFoundMsg)) ∧
    postEngineAnalyze "backend" none (fun _ => false) {} [] ⟨0⟩ =
      (⟨0⟩, some { status := 503, errorMsg := some engineNotFoundMsg, payload := none }) ∧
    (postEngineAnalyze "backend" none (fun _ => false) {} [] ⟨0⟩).1.spawnCount =
      World.spawnCount ⟨0⟩ :=
  engine_missing_rejects_before_spawn "backend" none (fun _ => false) {} [] ⟨0⟩ rfl

/-- Counterexample to C8 as frozen: the stderr handler trims the chunk and
requires a nonempty message, so a whitespace-only write — which is certainly
"anything" on the error stream — is ignored and the session does not fail. -/
theorem stderr_whitespace_ignored_counterexample :
    (runSession {} [SEvent.stderrData " "]).outcome = none ∧
    (runSession {} [SEvent.stderrData " "]).resolved = false ∧
    (" " : String) ≠ "" := by decide

/-- Claim C8 (amended): if the subprocess writes anything whose trimmed text
is nonempty to its error stream before the session has resolved, the session
fails with that trimmed message as the error and the subprocess is killed. -/
theorem stderr_data_rejects (cfg : Cfg) (evs : List SEvent) (chunk : String)
    (h : (runSession cfg evs).resolved = false) (hm : jsTrim chunk ≠ "") :
    (runSession cfg (evs ++ [SEvent.stderrData chunk])).outcome =
      some (.rejected (jsTrim chunk)) ∧
    (runSession cfg (evs ++ [SEvent.stderrData chunk])).killCount =
      (runSession cfg evs).killCount + 1 := by
  obtain ⟨hlis, -⟩ := unresolved_live cfg evs h
  rw [runSession_snoc]
  constructor <;> simp [step, hlis, h, hm]

/-- Witness for C8 (amended): an in-flight session killed by a stderr chunk. -/
theorem stderr_data_rejects_witness :
    (runSession {} ([SEvent.stdoutLine "uciok"] ++
        [SEvent.stderrData " engine blew up \n"])).outcome =
      some (.rejected (jsTrim " engine blew up \n")) ∧
    (runSession {} ([SEvent.stdoutLine "uciok"] ++
        [SEvent.stderrData " engine blew up \n"])).killCount =
      (runSession {} [SEvent.stdoutLine "uciok"]).killCount + 1 :=
  stderr_data_rejects {} [SEvent.stdoutLine "uciok"] " engine blew up \n"
    (by decide) (by decide)

/-- Claim C9: the status operation reports availability as the on-disk
existence of the resolved path together with the download hint, spawning
nothing (the `World` passes through), and the status route carries only the
basename of the path when available and null when not. -/
theorem status_route_contract (dirname : String) (envOverride : Option String)
    (fsExists : String → Bool) (w : World) :
    getEngineStatus dirname envOverride fsExists =
      { available := fsExists (resolveEnginePath dirname envOverride),
        enginePath := resolveEnginePath dirname envOverride,
        downloadUrl := stockfishWindowsUrl } ∧
    getEngineStatusRoute dirname envOverride fsExists w =
      (w, { available := fsExists (resolveEnginePath dirname envOverride),
            enginePath :=
              if fsExists (resolveEnginePath dirname envOverride) then
                some (basename (resolveEnginePath dirname envOverride))
              else none,
            downloadUrl := stockfishWindowsUrl }) :=
  ⟨rfl, rfl⟩

/-- Claim C10: a line that begins with `bestmove` but carries no parseable
move token still resolves the session successfully, with null bestmove and
ponder alongside the accumulated evaluation, depth, nodes and pv. -/
theorem bestmove_without_token_still_resolves (cfg : Cfg) (evs : List SEvent) (line : String)
    (h : (runSession cfg evs).resolved = false)
    (ht : jsTrim line = line)
    (hb : jsStartsWith line "bestmove" = true)
    (hm : bestmoveMatch line = none) :
    (runSession cfg (evs ++ [SEvent.stdoutLine line])).outcome =
      some (.resolvedWith
        { bestmove := none, ponder := none,
          evaluation := (runSession cfg evs).latestScore,
          depth := (runSession cfg evs).latestDepth,
          nodes := (runSession cfg evs).latestNodes,
          pv := (runSession cfg evs).latestPv }) := by
  obtain ⟨hlis, -⟩ := unresolved_live cfg evs h
  obtain ⟨h1, h2, h3, h4⟩ := bestmove_line_ne line hb
  rw [runSession_snoc]
  simp [step, hlis, ht, handleLine, h1, h2, h3, h4, hb, finish, h, hm]

/-- Witness for C10: the bare line `bestmove` after one info line resolves
with null moves and the accumulated fields. -/
theorem bestmove_without_token_still_resolves_witness :
    (runSession {} ([SEvent.stdoutLine "info depth 3 score cp -20 nodes 55 pv a2a3"] ++
        [SEvent.stdoutLine "bestmove"])).outcome =
      some (.resolvedWith
        { bestmove := none, ponder := none,
          evaluation :=
            (runSession {} [SEvent.stdoutLine "info depth 3 score cp -20 nodes 55 pv a2a3"]).latestScore,
          depth :=
            (runSession {} [SEvent.stdoutLine "info depth 3 score cp -20 nodes 55 pv a2a3"]).latestDepth,
          nodes :=
            (runSession {} [SEvent.stdoutLine "info depth 3 score cp -20 nodes 55 pv a2a3"]).latestNodes,
          pv :=
            (runSession {} [SEvent.stdoutLine "info depth 3 score cp -20 nodes 55 pv a2a3"]).latestPv }) :=
  bestmove_without_token_still_resolves {}
    [SEvent.stdoutLine "info depth 3 score cp -20 nodes 55 pv a2a3"] "bestmove"
    (by decide) (by decide) (by decide) (by decide)

